import Mathlib

/-!
A shallow embedding of `src/hiddenlayer/graph.py`: the `Node` record, the
`Graph` container and its mutation and topology operations (`add_node`,
`add_edge`, `add_edge_by_id`, `outgoing`, `incoming`, `siblings`,
indexing, `remove`, `replace`), together with theorems about them.

Modelling conventions:
* Python values that may appear as a node `output_shape` or as an edge
  label are modelled by `PyShape` (None, int, bool, str, tuple, list);
  Python truthiness and `isinstance(x, (tuple, list))` are modelled
  explicitly.
* Exceptions (`KeyError` from `del d[k]` / `d[k]` on a dict, `IndexError`
  from `nodes[0]` on an empty list, `AssertionError` from a failed
  `assert`) are modelled by `PyError`; mutating operations that can raise
  return the graph state reached at the moment the exception escapes,
  paired with an optional error, so that partially applied mutations stay
  observable.
* The Python dict `Graph.nodes` is modelled by an insertion-ordered
  association list with dict semantics: overwrite in place, lookup of the
  first matching key, `del` removes the key.
* `list(set(xs))` in `outgoing` is modelled by `List.dedup`; Python
  iterates a set in an implementation-defined order, so only set-level
  facts about the result are stated.
-/

set_option autoImplicit false

namespace HiddenLayer

/-- Python-level values usable as a `Node.output_shape` or as an edge
label: None, a scalar int or bool, a string, or a tuple or list of
dimension sizes. -/
inductive PyShape where
  | none
  | int (n : Int)
  | bool (b : Bool)
  | str (s : String)
  | tuple (dims : List Int)
  | list (dims : List Int)
  deriving DecidableEq, Repr

/-- Python truthiness of a `PyShape` value, as tested by
`if output_shape:` in `Node.__init__`. -/
def pyTruthy : PyShape → Bool
  | PyShape.none => false
  | PyShape.int n => n != 0
  | PyShape.bool b => b
  | PyShape.str s => s != ""
  | PyShape.tuple ds => !ds.isEmpty
  | PyShape.list ds => !ds.isEmpty

/-- Models `isinstance(x, (tuple, list))`. -/
def isTupleOrList : PyShape → Bool
  | PyShape.tuple _ => true
  | PyShape.list _ => true
  | _ => false

/-- Models `str(type(x))` for `PyShape` values, used to build the
assertion message of `Node.__init__`. -/
def pyTypeName : PyShape → String
  | PyShape.none => "<class 'NoneType'>"
  | PyShape.int _ => "<class 'int'>"
  | PyShape.bool _ => "<class 'bool'>"
  | PyShape.str _ => "<class 'str'>"
  | PyShape.tuple _ => "<class 'tuple'>"
  | PyShape.list _ => "<class 'list'>"

/-- Python exceptions raised by the modelled code: `KeyError` from a dict
access, `IndexError` from `nodes[0]` on an empty list, and
`AssertionError` from a failed `assert`. -/
inductive PyError where
  | keyError (key : String)
  | indexError
  | assertionError (msg : String)
  deriving DecidableEq, Repr

/-- One network layer (`Node` in graph.py).  The display-only members
(`repeat`, the `_caption` override, the derived `title` and `caption`
properties) are read by no operation modelled here and are omitted. -/
structure Node where
  id : String
  name : String
  op : String
  output_shape : PyShape
  params : List (String × PyShape)
  deriving DecidableEq, Repr

/-- `Node.__init__`: stores the fields, but first — only when
`output_shape` is truthy — executes
`assert isinstance(output_shape, (tuple, list)), "output_shape must be a
tuple or list but received {type}"`; a failed `assert` raises
`AssertionError` with that message. -/
def nodeInit (uid name op : String) (output_shape : PyShape)
    (params : List (String × PyShape)) : Except PyError Node :=
  if pyTruthy output_shape && !isTupleOrList output_shape then
    Except.error (PyError.assertionError
      ("output_shape must be a tuple or list but received " ++ pyTypeName output_shape))
  else
    Except.ok { id := uid, name := name, op := op,
                output_shape := output_shape, params := params }

/-- A directed edge, stored as the triple (source id, target id, label). -/
abbrev Edge := String × String × PyShape

/-- Lookup in the insertion-ordered association list modelling the dict
`Graph.nodes` (`dict.get`: first matching key, `Option`-valued). -/
def dictGet (d : List (String × Node)) (k : String) : Option Node :=
  (d.find? (fun p => p.1 == k)).map (fun p => p.2)

/-- `d[k] = v` on a Python dict: overwrite in place when the key exists,
append otherwise. -/
def dictInsert (d : List (String × Node)) (k : String) (v : Node) :
    List (String × Node) :=
  if d.any (fun p => p.1 == k) then
    d.map (fun p => if p.1 == k then (k, v) else p)
  else
    d ++ [(k, v)]

/-- The graph: a dict from node id to `Node` plus an ordered edge list. -/
structure Graph where
  nodes : List (String × Node)
  edges : List Edge
  deriving DecidableEq, Repr

/-- Stands for Python's `hash(None)`: the fallback identifier `Graph.id`
computes for an object without an `id` attribute, here `None` as produced
by `self[k]` on a dangling id.  It is an opaque value outside the string
id space; Python guarantees the int `hash(None)` never compares equal to
a string id. -/
def hashNone : String := "__hash(None)__"

/-- `Graph.id`: a `Node` exposes an `id` attribute, which is returned;
for `None` the `hash()` fallback applies. -/
def pyId : Option Node → String
  | Option.some n => n.id
  | Option.none => hashNone

/-- `Graph.add_node`: insert or overwrite by identity, last write wins. -/
def Graph.add_node (g : Graph) (node : Node) : Graph :=
  { g with nodes := dictInsert g.nodes node.id node }

/-- `Graph.add_edge`: build the identity triple and append it unless the
exact same triple is already present. -/
def Graph.add_edge (g : Graph) (node1 node2 : Option Node) (label : PyShape) :
    Graph :=
  let edge : Edge := (pyId node1, pyId node2, label)
  if edge ∈ g.edges then g else { g with edges := g.edges ++ [edge] }

/-- `Graph.add_edge_by_id`: unconditional append, bypassing the dedup
check. -/
def Graph.add_edge_by_id (g : Graph) (vid1 vid2 : String) (label : PyShape) :
    Graph :=
  { g with edges := g.edges ++ [(vid1, vid2, label)] }

/-- Core of `Graph.outgoing` after the single-node-to-list normalisation:
`list(set(e[1] for e in self.edges if e[0] in node_ids))`. -/
def Graph.outgoingIds (g : Graph) (node_ids : List String) : List String :=
  ((g.edges.filter (fun e => decide (e.1 ∈ node_ids))).map (fun e => e.2.1)).dedup

/-- `Graph.outgoing` on a single (possibly `None`) node. -/
def Graph.outgoing (g : Graph) (node : Option Node) : List String :=
  g.outgoingIds [pyId node]

/-- `Graph.incoming`: source ids of the edges into the given node, in
edge order, duplicates retained. -/
def Graph.incoming (g : Graph) (node : Option Node) : List String :=
  (g.edges.filter (fun e => e.2.1 == pyId node)).map (fun e => e.1)

/-- `Graph.__getitem__` with a single id: `self.nodes.get(key)`. -/
def Graph.getOne (g : Graph) (key : String) : Option Node :=
  dictGet g.nodes key

/-- `Graph.__getitem__` with a list of ids. -/
def Graph.getList (g : Graph) (keys : List String) : List (Option Node) :=
  keys.map g.getOne

/-- `Graph.siblings`: when the node has exactly one incoming source id,
the nodes outgoing from that single parent (fetched through indexing, so
entries may be `None`); otherwise the one-element fallback `[node]`. -/
def Graph.siblings (g : Graph) (node : Node) : List (Option Node) :=
  match g.incoming (Option.some node) with
  | [k] => g.getList (g.outgoing (g.getOne k))
  | _ => [Option.some node]

/-- One iteration of the loop in `Graph.remove`: first filter out every
edge touching `k`, then `del self.nodes[k]`, which raises `KeyError` when
`k` is absent — at which point the edges are already gone. -/
def removeIter (g : Graph) (k : String) : Graph × Option PyError :=
  let g1 : Graph :=
    { g with edges := g.edges.filter (fun e => !(e.1 == k) && !(e.2.1 == k)) }
  if g1.nodes.any (fun p => p.1 == k) then
    ({ g1 with nodes := g1.nodes.filter (fun p => !(p.1 == k)) }, Option.none)
  else
    (g1, Option.some (PyError.keyError k))

/-- `Graph.remove` on an already list-normalised argument; an exception
stops the loop and the state reached so far is kept. -/
def Graph.remove (g : Graph) : List Node → Graph × Option PyError
  | [] => (g, Option.none)
  | n :: rest =>
    let r := removeIter g n.id
    match r.2 with
    | Option.none => r.1.remove rest
    | Option.some e => (r.1, Option.some e)

/-- The first rewiring loop of `Graph.replace`: for each source id `k` of
the snapshot of `incoming(nodes[0])`, fetch `in_node = self.nodes[k]`
(KeyError when dangling) and
`add_edge(in_node, node, in_node.output_shape)`. -/
def replaceInLoop (node : Node) : Graph → List String → Graph × Option PyError
  | g, [] => (g, Option.none)
  | g, k :: ks =>
    match dictGet g.nodes k with
    | Option.some in_node =>
        replaceInLoop node
          (g.add_edge (Option.some in_node) (Option.some node) in_node.output_shape) ks
    | Option.none => (g, Option.some (PyError.keyError k))

/-- The second rewiring loop of `Graph.replace`: for each target id `k`
of the snapshot of `outgoing(nodes[-1])`,
`add_edge(node, self[k], node.output_shape)`; `self[k]` may be `None`. -/
def replaceOutLoop (node : Node) : Graph → List String → Graph
  | g, [] => g
  | g, k :: ks =>
      replaceOutLoop node
        (g.add_edge (Option.some node) (g.getOne k) node.output_shape) ks

/-- The removal loop of `Graph.replace`: skip `n` when collapsing and
`n == node` (Python default equality on `Node`), otherwise
`self.remove(n)`; an exception stops the loop. -/
def replaceRemoveLoop (collapse : Bool) (node : Node) :
    Graph → List Node → Graph × Option PyError
  | g, [] => (g, Option.none)
  | g, n :: rest =>
    if collapse && n == node then
      replaceRemoveLoop collapse node g rest
    else
      let r := g.remove [n]
      match r.2 with
      | Option.none => replaceRemoveLoop collapse node r.1 rest
      | Option.some e => (r.1, Option.some e)

/-- `Graph.replace`: decide `collapse`, insert `node` when not
collapsing, run both rewiring loops (the outgoing snapshot is taken after
the incoming loop ran), then the removal loop.  On an empty `nodes` list
Python raises `IndexError` at `nodes[0]` — after the insertion already
happened. -/
def Graph.replace (g : Graph) (nodes : List Node) (node : Node) :
    Graph × Option PyError :=
  match nodes with
  | [] =>
    let collapse := g.nodes.any (fun p => p.1 == node.id)
    ((if collapse then g else g.add_node node), Option.some PyError.indexError)
  | n0 :: rest =>
    let nlast := rest.getLastD n0
    let collapse := g.nodes.any (fun p => p.1 == node.id)
    let g1 := if collapse then g else g.add_node node
    let r1 := replaceInLoop node g1 (g1.incoming (Option.some n0))
    match r1.2 with
    | Option.some e => (r1.1, Option.some e)
    | Option.none =>
      let g2 := replaceOutLoop node r1.1 (r1.1.outgoing (Option.some nlast))
      replaceRemoveLoop collapse node g2 (n0 :: rest)

/-! ## Helper lemmas -/

theorem any_key_of_dictGet_some {d : List (String × Node)} {k : String} {v : Node}
    (h : dictGet d k = Option.some v) : d.any (fun p => p.1 == k) = true := by
  unfold dictGet at h
  rcases Option.map_eq_some'.mp h with ⟨p, hp, hv⟩
  have hm := List.mem_of_find?_eq_some hp
  have hpred := List.find?_some hp
  exact List.any_eq_true.mpr ⟨p, hm, hpred⟩

theorem any_key_of_dictGet_none {d : List (String × Node)} {k : String}
    (h : dictGet d k = Option.none) : d.any (fun p => p.1 == k) = false := by
  unfold dictGet at h
  have hf : d.find? (fun p => p.1 == k) = Option.none := by
    cases hx : d.find? (fun p => p.1 == k) with
    | none => rfl
    | some p => rw [hx] at h; simp at h
  rw [List.any_eq_false]
  intro p hp
  simpa using List.find?_eq_none.mp hf p hp

theorem dictGet_filter_self (d : List (String × Node)) (k : String) :
    dictGet (d.filter (fun p => !(p.1 == k))) k = Option.none := by
  unfold dictGet
  rw [Option.map_eq_none']
  rw [List.find?_eq_none]
  intro p hp
  have hne := (List.mem_filter.mp hp).2
  simp at hne
  simp [hne]

theorem dictGet_filter_none {d : List (String × Node)} {k : String}
    (q : String × Node → Bool) (h : dictGet d k = Option.none) :
    dictGet (d.filter q) k = Option.none := by
  unfold dictGet at h ⊢
  rw [Option.map_eq_none'] at h ⊢
  rw [List.find?_eq_none] at h ⊢
  intro p hp
  exact h p (List.mem_filter.mp hp).1

theorem add_edge_nodes (g : Graph) (x y : Option Node) (l : PyShape) :
    (g.add_edge x y l).nodes = g.nodes := by
  simp only [Graph.add_edge]
  split <;> rfl

@[simp] theorem pyId_some (n : Node) : pyId (Option.some n) = n.id := rfl

theorem add_edge_some_eq_of_mem {g : Graph} {n1 n2 : Node} {l : PyShape}
    (h : (n1.id, n2.id, l) ∈ g.edges) :
    g.add_edge (Option.some n1) (Option.some n2) l = g := by
  simp only [Graph.add_edge, pyId]
  exact if_pos h

theorem add_edge_some_eq_of_not_mem {g : Graph} {n1 n2 : Node} {l : PyShape}
    (h : (n1.id, n2.id, l) ∉ g.edges) :
    g.add_edge (Option.some n1) (Option.some n2) l =
      { g with edges := g.edges ++ [(n1.id, n2.id, l)] } := by
  simp only [Graph.add_edge, pyId]
  exact if_neg h

theorem mem_add_edge_edges {g : Graph} {e : Edge} (x y : Option Node) (l : PyShape)
    (h : e ∈ g.edges) : e ∈ (g.add_edge x y l).edges := by
  simp only [Graph.add_edge]
  split
  · exact h
  · exact List.mem_append_left _ h

theorem replaceInLoop_nodes (node : Node) (ks : List String) :
    ∀ g : Graph, (replaceInLoop node g ks).1.nodes = g.nodes := by
  induction ks with
  | nil => intro g; rfl
  | cons k ks ih =>
    intro g
    unfold replaceInLoop
    cases h : dictGet g.nodes k with
    | none => rfl
    | some in_node => rw [ih]; exact add_edge_nodes ..

theorem replaceInLoop_mem (node : Node) (ks : List String) :
    ∀ (g : Graph) (e : Edge), e ∈ g.edges → e ∈ (replaceInLoop node g ks).1.edges := by
  induction ks with
  | nil => intro g e he; exact he
  | cons k ks ih =>
    intro g e he
    unfold replaceInLoop
    cases h : dictGet g.nodes k with
    | none => exact he
    | some in_node => exact ih _ e (mem_add_edge_edges _ _ _ he)

theorem replaceOutLoop_nodes (node : Node) (ks : List String) :
    ∀ g : Graph, (replaceOutLoop node g ks).nodes = g.nodes := by
  induction ks with
  | nil => intro g; rfl
  | cons k ks ih =>
    intro g
    unfold replaceOutLoop
    rw [ih]
    exact add_edge_nodes ..

theorem replaceOutLoop_mem (node : Node) (ks : List String) :
    ∀ (g : Graph) (e : Edge), e ∈ g.edges → e ∈ (replaceOutLoop node g ks).edges := by
  induction ks with
  | nil => intro g e he; exact he
  | cons k ks ih =>
    intro g e he
    unfold replaceOutLoop
    exact ih _ e (mem_add_edge_edges _ _ _ he)

theorem removeIter_present {g : Graph} {k : String}
    (h : g.nodes.any (fun p => p.1 == k) = true) :
    removeIter g k =
      ({ nodes := g.nodes.filter (fun p => !(p.1 == k)),
         edges := g.edges.filter (fun e => !(e.1 == k) && !(e.2.1 == k)) },
       Option.none) := by
  simp only [removeIter]
  rw [if_pos h]

theorem removeIter_absent {g : Graph} {k : String}
    (h : g.nodes.any (fun p => p.1 == k) = false) :
    removeIter g k =
      ({ g with edges := g.edges.filter (fun e => !(e.1 == k) && !(e.2.1 == k)) },
       Option.some (PyError.keyError k)) := by
  simp only [removeIter]
  rw [if_neg (by rw [h]; exact Bool.false_ne_true)]

theorem exists_of_map_eq_singleton {α β : Type} {f : α → β} {l : List α} {b : β}
    (h : l.map f = [b]) : ∃ a ∈ l, f a = b := by
  cases l with
  | nil => simp at h
  | cons x t =>
    cases t with
    | nil =>
      simp only [List.map_cons, List.map_nil, List.cons.injEq, and_true] at h
      exact ⟨x, List.mem_cons_self x [], h⟩
    | cons y t2 => simp at h

/-! ## Claims -/

/-- C4 (counterexample): constructing a `Node` with the scalar, non-sequence
`output_shape` value `0` succeeds, because `if output_shape:` is false for a
falsy value and the `isinstance` assertion is skipped; this contradicts the
claim that construction with any scalar or non-sequence `output_shape`
fails. -/
theorem nodeInit_falsy_scalar_ok :
    nodeInit "n" "x" "op" (PyShape.int 0) [] =
      Except.ok { id := "n", name := "x", op := "op",
                  output_shape := PyShape.int 0, params := [] } := by
  rfl

/-- C4 (amended): constructing a `Node` with a tuple or list `output_shape`
succeeds; with a falsy `output_shape` (None, 0, False, "", empty sequence) it
also succeeds, unchecked; with a truthy non-sequence value it fails with an
`AssertionError` whose message says the shape must be a tuple or list. -/
theorem nodeInit_shape_check (uid name op : String) (shape : PyShape)
    (ps : List (String × PyShape)) :
    (isTupleOrList shape = true →
      nodeInit uid name op shape ps =
        Except.ok { id := uid, name := name, op := op,
                    output_shape := shape, params := ps }) ∧
    (pyTruthy shape = false →
      nodeInit uid name op shape ps =
        Except.ok { id := uid, name := name, op := op,
                    output_shape := shape, params := ps }) ∧
    (pyTruthy shape = true → isTupleOrList shape = false →
      nodeInit uid name op shape ps =
        Except.error (PyError.assertionError
          ("output_shape must be a tuple or list but received " ++ pyTypeName shape))) := by
  refine ⟨fun h1 => ?_, fun h2 => ?_, fun h3 h4 => ?_⟩
  · simp [nodeInit, h1]
  · simp [nodeInit, h2]
  · simp [nodeInit, h3, h4]

/-- C4 (witness for the amended theorem): the truthy scalar `5` is rejected
with the assertion message naming the int type. -/
theorem nodeInit_shape_check_witness :
    nodeInit "n" "x" "op" (PyShape.int 5) [] =
      Except.error (PyError.assertionError
        "output_shape must be a tuple or list but received <class 'int'>") :=
  (nodeInit_shape_check "n" "x" "op" (PyShape.int 5) []).2.2 (by decide) (by decide)

/-- C3 (counterexample): on a graph state that already holds two copies of
the triple ("a", "b", None) — reachable through two `add_edge_by_id` calls —
calling `add_edge` twice with node arguments yielding that same triple leaves
two copies in the edge list, not exactly one. -/
theorem add_edge_preexisting_duplicates_remain :
    ((((((Graph.mk [] []).add_edge_by_id "a" "b" PyShape.none).add_edge_by_id
        "a" "b" PyShape.none).add_edge
        (Option.some (Node.mk "a" "" "" PyShape.none []))
        (Option.some (Node.mk "b" "" "" PyShape.none [])) PyShape.none).add_edge
        (Option.some (Node.mk "a" "" "" PyShape.none []))
        (Option.some (Node.mk "b" "" "" PyShape.none []))
        PyShape.none).edges.count ("a", "b", PyShape.none)) = 2 := by
  decide

/-- C3 (amended): on a graph state holding no edge with the given exact
triple (and none with the alternative label either), calling `add_edge`
twice with the identical (source id, target id, label) triple appends the
edge once and the second call is a no-op, leaving exactly one copy; a
further call with the same endpoints but a different label appends a
second, distinct edge. -/
theorem add_edge_exact_triple_dedup (g : Graph) (n1 n2 : Node) (l l' : PyShape)
    (h1 : (n1.id, n2.id, l) ∉ g.edges) (h2 : (n1.id, n2.id, l') ∉ g.edges)
    (hll : l ≠ l') :
    ((g.add_edge (Option.some n1) (Option.some n2) l).add_edge (Option.some n1)
        (Option.some n2) l) = g.add_edge (Option.some n1) (Option.some n2) l ∧
    (g.add_edge (Option.some n1) (Option.some n2) l).edges.count (n1.id, n2.id, l) = 1 ∧
    (((g.add_edge (Option.some n1) (Option.some n2) l).add_edge (Option.some n1)
        (Option.some n2) l').edges =
      g.edges ++ [(n1.id, n2.id, l)] ++ [(n1.id, n2.id, l')]) ∧
    ((g.add_edge (Option.some n1) (Option.some n2) l).add_edge (Option.some n1)
        (Option.some n2) l').edges.count (n1.id, n2.id, l') = 1 := by
  have hg1 : g.add_edge (Option.some n1) (Option.some n2) l =
      { g with edges := g.edges ++ [(n1.id, n2.id, l)] } :=
    add_edge_some_eq_of_not_mem h1
  have hmem2 : (n1.id, n2.id, l') ∉ (g.add_edge (Option.some n1) (Option.some n2) l).edges := by
    rw [hg1]
    intro hx
    rcases List.mem_append.mp hx with hx | hx
    · exact h2 hx
    · have := List.mem_singleton.mp hx
      exact hll (congrArg (fun e : Edge => e.2.2) this).symm
  have hne : ((n1.id, n2.id, l) : Edge) ≠ (n1.id, n2.id, l') := by
    intro hx
    exact hll (congrArg (fun e : Edge => e.2.2) hx)
  have hg2 : (g.add_edge (Option.some n1) (Option.some n2) l).add_edge (Option.some n1)
      (Option.some n2) l' =
      { g with edges := g.edges ++ [(n1.id, n2.id, l)] ++ [(n1.id, n2.id, l')] } := by
    rw [add_edge_some_eq_of_not_mem hmem2, hg1]
  refine ⟨?_, ?_, ?_, ?_⟩
  · refine add_edge_some_eq_of_mem ?_
    rw [hg1]
    exact List.mem_append_right _ (List.mem_singleton_self _)
  · rw [hg1]
    simp [List.count_append, List.count_eq_zero.mpr h1]
  · rw [hg2]
  · rw [hg2]
    have hne2 : ((n1.id, n2.id, l') : Edge) ≠ (n1.id, n2.id, l) := Ne.symm hne
    simp [List.count_append, List.count_eq_zero.mpr h2, List.count_cons,
      List.count_nil, beq_iff_eq, hne2]

/-- C3 (witness for the amended theorem): starting from the empty graph,
adding ("a", "b", None) twice leaves a single copy. -/
theorem add_edge_exact_triple_dedup_witness :
    ((Graph.mk [] []).add_edge (Option.some (Node.mk "a" "" "" PyShape.none []))
        (Option.some (Node.mk "b" "" "" PyShape.none []))
        PyShape.none).edges.count ("a", "b", PyShape.none) = 1 :=
  (add_edge_exact_triple_dedup (Graph.mk [] []) (Node.mk "a" "" "" PyShape.none [])
    (Node.mk "b" "" "" PyShape.none []) PyShape.none (PyShape.list [])
    (by decide) (by decide) (by decide)).2.1

/-- C7: `remove` on a node whose id is absent from the node mapping reports
the `KeyError` from `del self.nodes[k]`; no guard turns it into a silent
no-op. -/
theorem remove_missing_key_error (g : Graph) (n : Node)
    (h : g.getOne n.id = Option.none) :
    (g.remove [n]).2 = Option.some (PyError.keyError n.id) := by
  have hany : g.nodes.any (fun p => p.1 == n.id) = false :=
    any_key_of_dictGet_none h
  simp only [Graph.remove, removeIter]
  rw [if_neg (by simp [hany])]

/-- C7 (witness): removing an absent node from the empty graph yields
`KeyError "z"`. -/
theorem remove_missing_key_error_witness :
    ((Graph.mk [] []).remove [Node.mk "z" "" "" PyShape.none []]).2 =
      Option.some (PyError.keyError "z") :=
  remove_missing_key_error (Graph.mk [] []) (Node.mk "z" "" "" PyShape.none [])
    (by decide)

/-- C1: on a graph holding exactly the chain A → B → C (edges labelled
None) and a fresh node `nw` whose id is not in the graph,
`replace([A, B, C], nw)` inserts `nw`, rewires nothing (A has no incoming
source and C no outgoing target) and removes A, B, C with all their
edges, producing the graph with the single node `nw` and no edges, and no
error. -/
theorem replace_chain_collapses_to_single_node (A B C nw : Node)
    (hAB : A.id ≠ B.id) (hAC : A.id ≠ C.id) (hBC : B.id ≠ C.id)
    (hwA : nw.id ≠ A.id) (hwB : nw.id ≠ B.id) (hwC : nw.id ≠ C.id) :
    Graph.replace
      (Graph.mk [(A.id, A), (B.id, B), (C.id, C)]
        [(A.id, B.id, PyShape.none), (B.id, C.id, PyShape.none)])
      [A, B, C] nw =
      (Graph.mk [(nw.id, nw)] [], Option.none) := by
  simp [Graph.replace, Graph.add_node, dictInsert, dictGet, Graph.incoming,
    Graph.outgoing, Graph.outgoingIds, Graph.getOne, Graph.getList,
    replaceInLoop, replaceOutLoop, replaceRemoveLoop, Graph.remove, removeIter,
    pyId, List.getLastD, beq_iff_eq,
    hAB, hAC, hBC, hwA, hwB, hwC, Ne.symm hAB, Ne.symm hAC, Ne.symm hBC,
    Ne.symm hwA, Ne.symm hwB, Ne.symm hwC]

/-- C1 (witness): the spec's example — A:conv, B:relu, C:pool chained with
None labels, fused into the fresh node "fused" — leaves one node and zero
edges. -/
theorem replace_chain_collapses_to_single_node_witness :
    Graph.replace
      (Graph.mk [("A", Node.mk "A" "A" "conv" PyShape.none []),
                 ("B", Node.mk "B" "B" "relu" PyShape.none []),
                 ("C", Node.mk "C" "C" "pool" PyShape.none [])]
        [("A", "B", PyShape.none), ("B", "C", PyShape.none)])
      [Node.mk "A" "A" "conv" PyShape.none [],
       Node.mk "B" "B" "relu" PyShape.none [],
       Node.mk "C" "C" "pool" PyShape.none []]
      (Node.mk "fused" "fused" "conv_relu_pool" PyShape.none []) =
      (Graph.mk [("fused", Node.mk "fused" "fused" "conv_relu_pool" PyShape.none [])] [],
       Option.none) :=
  replace_chain_collapses_to_single_node
    (Node.mk "A" "A" "conv" PyShape.none [])
    (Node.mk "B" "B" "relu" PyShape.none [])
    (Node.mk "C" "C" "pool" PyShape.none [])
    (Node.mk "fused" "fused" "conv_relu_pool" PyShape.none [])
    (by decide) (by decide) (by decide) (by decide) (by decide) (by decide)

/-- C2 (counterexample): `replace([a], new)` where `new` merely has the
same id as `a` but is a different object (here a different `op`) deletes
the node outright: the collapse skip compares `n == node`, which fails for
a distinct object, so `remove(a)` runs, the mapping loses the id and the
former incoming edge ("p", "a", None) is destroyed — contradicting the
claim that connectivity is preserved and the surviving node kept. -/
theorem replace_same_id_distinct_node_drops_node :
    ((Graph.mk [("p", Node.mk "p" "p" "op" PyShape.none []),
                ("a", Node.mk "a" "a" "op1" PyShape.none [])]
       [("p", "a", PyShape.none)]).replace
        [Node.mk "a" "a" "op1" PyShape.none []]
        (Node.mk "a" "a" "op2" PyShape.none [])).1.getOne "a" = Option.none ∧
    ((Graph.mk [("p", Node.mk "p" "p" "op" PyShape.none []),
                ("a", Node.mk "a" "a" "op1" PyShape.none [])]
       [("p", "a", PyShape.none)]).replace
        [Node.mk "a" "a" "op1" PyShape.none []]
        (Node.mk "a" "a" "op2" PyShape.none [])).1.edges = [] := by
  decide

/-- C2 (amended): `replace([a], a)` — the replacement being the node
itself, the genuine collapse case — leaves the node mapping unchanged (so
`a` is not duplicated and the survivor is kept under its identity) and
every former edge of the graph, in particular all of `a`'s incoming and
outgoing edges, is still present afterwards. -/
theorem replace_collapse_self_preserves (g : Graph) (a : Node)
    (ha : g.getOne a.id = Option.some a) :
    (g.replace [a] a).1.nodes = g.nodes ∧
    (g.replace [a] a).1.getOne a.id = Option.some a ∧
    ∀ e ∈ g.edges, e ∈ (g.replace [a] a).1.edges := by
  have hany := any_key_of_dictGet_some ha
  have hnodes1 := replaceInLoop_nodes a (g.incoming (Option.some a)) g
  cases herr : (replaceInLoop a g (g.incoming (Option.some a))).2 with
  | some e =>
    have hres : Graph.replace g [a] a =
        ((replaceInLoop a g (g.incoming (Option.some a))).1, Option.some e) := by
      simp only [Graph.replace, List.getLastD, hany, if_true, herr]
    refine ⟨?_, ?_, ?_⟩
    · rw [hres]
      exact hnodes1
    · simp only [Graph.getOne]
      rw [hres]
      show dictGet (replaceInLoop a g (g.incoming (Option.some a))).1.nodes a.id = _
      rw [hnodes1]
      exact ha
    · intro e' he'
      rw [hres]
      exact replaceInLoop_mem a _ g e' he'
  | none =>
    have hres : Graph.replace g [a] a =
        (replaceOutLoop a (replaceInLoop a g (g.incoming (Option.some a))).1
          ((replaceInLoop a g (g.incoming (Option.some a))).1.outgoing (Option.some a)),
         Option.none) := by
      simp only [Graph.replace, List.getLastD, hany, if_true, herr]
      simp [replaceRemoveLoop]
    have hnodes2 := replaceOutLoop_nodes a
      ((replaceInLoop a g (g.incoming (Option.some a))).1.outgoing (Option.some a))
      (replaceInLoop a g (g.incoming (Option.some a))).1
    refine ⟨?_, ?_, ?_⟩
    · rw [hres]
      exact hnodes2.trans hnodes1
    · simp only [Graph.getOne]
      rw [hres]
      show dictGet (replaceOutLoop a _ _).nodes a.id = _
      rw [hnodes2, hnodes1]
      exact ha
    · intro e' he'
      rw [hres]
      exact replaceOutLoop_mem a _ _ e' (replaceInLoop_mem a _ g e' he')

/-- C2 (witness for the amended theorem): collapsing `[a]` onto `a` itself
in the graph p → a keeps `a` in the mapping and keeps the edge. -/
theorem replace_collapse_self_preserves_witness :
    ((Graph.mk [("p", Node.mk "p" "p" "op" PyShape.none []),
                ("a", Node.mk "a" "a" "op1" PyShape.none [])]
       [("p", "a", PyShape.none)]).replace
        [Node.mk "a" "a" "op1" PyShape.none []]
        (Node.mk "a" "a" "op1" PyShape.none [])).1.getOne "a" =
      Option.some (Node.mk "a" "a" "op1" PyShape.none []) ∧
    ("p", "a", PyShape.none) ∈
      ((Graph.mk [("p", Node.mk "p" "p" "op" PyShape.none []),
                  ("a", Node.mk "a" "a" "op1" PyShape.none [])]
         [("p", "a", PyShape.none)]).replace
          [Node.mk "a" "a" "op1" PyShape.none []]
          (Node.mk "a" "a" "op1" PyShape.none [])).1.edges :=
  ⟨(replace_collapse_self_preserves
      (Graph.mk [("p", Node.mk "p" "p" "op" PyShape.none []),
                 ("a", Node.mk "a" "a" "op1" PyShape.none [])]
        [("p", "a", PyShape.none)])
      (Node.mk "a" "a" "op1" PyShape.none []) (by decide)).2.1,
   (replace_collapse_self_preserves
      (Graph.mk [("p", Node.mk "p" "p" "op" PyShape.none []),
                 ("a", Node.mk "a" "a" "op1" PyShape.none [])]
        [("p", "a", PyShape.none)])
      (Node.mk "a" "a" "op1" PyShape.none []) (by decide)).2.2
      ("p", "a", PyShape.none) (by decide)⟩

/-- C5: removing a node that is present deletes it from the node mapping
and deletes every edge in which its id appears as source or target;
afterwards `incoming` and `outgoing` on it are empty and indexing its id
returns `None`.  A sequence argument applies the same effect node by node
in order. -/
theorem remove_present_node (g : Graph) (n : Node)
    (h : g.getOne n.id = Option.some n) :
    (g.remove [n]).2 = Option.none ∧
    (g.remove [n]).1.getOne n.id = Option.none ∧
    (g.remove [n]).1.edges =
      g.edges.filter (fun e => !(e.1 == n.id) && !(e.2.1 == n.id)) ∧
    (g.remove [n]).1.incoming (Option.some n) = [] ∧
    (g.remove [n]).1.outgoing (Option.some n) = [] ∧
    (g.remove [n]).1.nodes = g.nodes.filter (fun p => !(p.1 == n.id)) ∧
    ∀ rest : List Node, g.remove (n :: rest) = ((g.remove [n]).1).remove rest := by
  have hany := any_key_of_dictGet_some h
  have hri := removeIter_present hany
  have hr : g.remove [n] =
      ({ nodes := g.nodes.filter (fun p => !(p.1 == n.id)),
         edges := g.edges.filter (fun e => !(e.1 == n.id) && !(e.2.1 == n.id)) },
       Option.none) := by
    simp [Graph.remove, hri]
  refine ⟨?_, ?_, ?_, ?_, ?_, ?_, ?_⟩
  · rw [hr]
  · rw [hr]
    exact dictGet_filter_self g.nodes n.id
  · rw [hr]
  · rw [hr]
    simp only [Graph.incoming, pyId_some]
    rw [List.map_eq_nil_iff, List.filter_eq_nil_iff]
    intro e he
    have hkeep := (List.mem_filter.mp he).2
    simp only [Bool.and_eq_true, Bool.not_eq_true', beq_eq_false_iff_ne] at hkeep
    simp [hkeep.2]
  · rw [hr]
    simp only [Graph.outgoing, Graph.outgoingIds, pyId_some]
    rw [List.dedup_eq_nil, List.map_eq_nil_iff, List.filter_eq_nil_iff]
    intro e he
    have hkeep := (List.mem_filter.mp he).2
    simp only [Bool.and_eq_true, Bool.not_eq_true', beq_eq_false_iff_ne] at hkeep
    simp [hkeep.1]
  · rw [hr]
  · intro rest
    rw [hr]
    simp [Graph.remove, hri]

/-- C5 (witness): removing node "n" from a concrete three-node graph
reports no error, drops "n" from the mapping, and leaves `incoming` on it
empty. -/
theorem remove_present_node_witness :
    ((Graph.mk [("p", Node.mk "p" "p" "op" PyShape.none []),
                ("n", Node.mk "n" "n" "op" PyShape.none []),
                ("m", Node.mk "m" "m" "op" PyShape.none [])]
       [("p", "n", PyShape.none), ("p", "m", PyShape.none)]).remove
        [Node.mk "n" "n" "op" PyShape.none []]).2 = Option.none ∧
    ((Graph.mk [("p", Node.mk "p" "p" "op" PyShape.none []),
                ("n", Node.mk "n" "n" "op" PyShape.none []),
                ("m", Node.mk "m" "m" "op" PyShape.none [])]
       [("p", "n", PyShape.none), ("p", "m", PyShape.none)]).remove
        [Node.mk "n" "n" "op" PyShape.none []]).1.getOne "n" = Option.none :=
  ⟨(remove_present_node
      (Graph.mk [("p", Node.mk "p" "p" "op" PyShape.none []),
                 ("n", Node.mk "n" "n" "op" PyShape.none []),
                 ("m", Node.mk "m" "m" "op" PyShape.none [])]
        [("p", "n", PyShape.none), ("p", "m", PyShape.none)])
      (Node.mk "n" "n" "op" PyShape.none []) (by decide)).1,
   (remove_present_node
      (Graph.mk [("p", Node.mk "p" "p" "op" PyShape.none []),
                 ("n", Node.mk "n" "n" "op" PyShape.none []),
                 ("m", Node.mk "m" "m" "op" PyShape.none [])]
        [("p", "n", PyShape.none), ("p", "m", PyShape.none)])
      (Node.mk "n" "n" "op" PyShape.none []) (by decide)).2.1⟩

/-- C8: `remove` is not atomic on error.  On a single absent node the
`KeyError` is reported only after the edges touching that id were already
deleted; on a sequence `[m, n]` with `m` present and `n` absent, `m` stays
fully removed (mapping and edges) when the error surfaces. -/
theorem remove_not_atomic (g : Graph) (m n : Node)
    (hm : g.getOne m.id = Option.some m) (hn : g.getOne n.id = Option.none) :
    (g.remove [n]).1.edges =
      g.edges.filter (fun e => !(e.1 == n.id) && !(e.2.1 == n.id)) ∧
    (g.remove [n]).2 = Option.some (PyError.keyError n.id) ∧
    (g.remove [m, n]).1.getOne m.id = Option.none ∧
    (g.remove [m, n]).1.edges =
      (g.edges.filter (fun e => !(e.1 == m.id) && !(e.2.1 == m.id))).filter
        (fun e => !(e.1 == n.id) && !(e.2.1 == n.id)) ∧
    (g.remove [m, n]).2 = Option.some (PyError.keyError n.id) := by
  have hanyn := any_key_of_dictGet_none hn
  have hrn := removeIter_absent hanyn
  have h1 : g.remove [n] =
      ({ g with edges := g.edges.filter (fun e => !(e.1 == n.id) && !(e.2.1 == n.id)) },
       Option.some (PyError.keyError n.id)) := by
    simp [Graph.remove, hrn]
  have hanym := any_key_of_dictGet_some hm
  have hrm := removeIter_present hanym
  have hn2 : dictGet (g.nodes.filter (fun p => !(p.1 == m.id))) n.id = Option.none :=
    dictGet_filter_none _ hn
  have hanyn2 := any_key_of_dictGet_none hn2
  have hrn2 := removeIter_absent (g :=
    { nodes := g.nodes.filter (fun p => !(p.1 == m.id)),
      edges := g.edges.filter (fun e => !(e.1 == m.id) && !(e.2.1 == m.id)) }) hanyn2
  have h2 : g.remove [m, n] =
      ({ nodes := g.nodes.filter (fun p => !(p.1 == m.id)),
         edges := (g.edges.filter (fun e => !(e.1 == m.id) && !(e.2.1 == m.id))).filter
           (fun e => !(e.1 == n.id) && !(e.2.1 == n.id)) },
       Option.some (PyError.keyError n.id)) := by
    simp [Graph.remove, hrm, hrn2]
  refine ⟨?_, ?_, ?_, ?_, ?_⟩
  · rw [h1]
  · rw [h1]
  · rw [h2]
    exact dictGet_filter_self g.nodes m.id
  · rw [h2]
  · rw [h2]

/-- C8 (witness): removing `[m, zz]` where "zz" is absent reports
`KeyError "zz"` while "m" and the edge chain touching it are already
gone. -/
theorem remove_not_atomic_witness :
    ((Graph.mk [("m", Node.mk "m" "m" "op" PyShape.none [])]
        [("m", "q", PyShape.none), ("q", "zz", PyShape.none)]).remove
          [Node.mk "m" "m" "op" PyShape.none [],
           Node.mk "zz" "" "" PyShape.none []]).1.getOne "m" = Option.none ∧
    ((Graph.mk [("m", Node.mk "m" "m" "op" PyShape.none [])]
        [("m", "q", PyShape.none), ("q", "zz", PyShape.none)]).remove
          [Node.mk "m" "m" "op" PyShape.none [],
           Node.mk "zz" "" "" PyShape.none []]).2 =
      Option.some (PyError.keyError "zz") :=
  ⟨(remove_not_atomic
      (Graph.mk [("m", Node.mk "m" "m" "op" PyShape.none [])]
        [("m", "q", PyShape.none), ("q", "zz", PyShape.none)])
      (Node.mk "m" "m" "op" PyShape.none []) (Node.mk "zz" "" "" PyShape.none [])
      (by decide) (by decide)).2.2.1,
   (remove_not_atomic
      (Graph.mk [("m", Node.mk "m" "m" "op" PyShape.none [])]
        [("m", "q", PyShape.none), ("q", "zz", PyShape.none)])
      (Node.mk "m" "m" "op" PyShape.none []) (Node.mk "zz" "" "" PyShape.none [])
      (by decide) (by decide)).2.2.2.2⟩

/-- C6: for a node `n` whose incoming list is exactly one source id — that
of a stored parent `p` — `siblings n` is the indexed outgoing set of that
parent, it contains `n` itself, and it coincides with `outgoing` applied
to the node fetched from `incoming`; for any node whose incoming list does
not have length one, `siblings` is the one-element fallback. -/
theorem siblings_single_parent (g : Graph) (n p : Node)
    (hinc : g.incoming (Option.some n) = [p.id])
    (hp : g.getOne p.id = Option.some p)
    (hn : g.getOne n.id = Option.some n) :
    g.siblings n = g.getList (g.outgoing (Option.some p)) ∧
    Option.some n ∈ g.siblings n ∧
    ∀ m : Node, (g.incoming (Option.some m)).length ≠ 1 →
      g.siblings m = [Option.some m] := by
  have h1 : g.siblings n = g.getList (g.outgoing (Option.some p)) := by
    simp only [Graph.siblings, hinc, hp]
  obtain ⟨e, hef, he1⟩ :
      ∃ e ∈ g.edges.filter (fun e => e.2.1 == pyId (Option.some n)), e.1 = p.id :=
    exists_of_map_eq_singleton hinc
  have hemem : e ∈ g.edges := (List.mem_filter.mp hef).1
  have het : e.2.1 = n.id := by
    have := (List.mem_filter.mp hef).2
    simpa [pyId] using this
  have hout : n.id ∈ g.outgoing (Option.some p) := by
    simp only [Graph.outgoing, Graph.outgoingIds, pyId_some]
    refine List.mem_dedup.mpr (List.mem_map.mpr ⟨e, ?_, het⟩)
    exact List.mem_filter.mpr ⟨hemem, by simp [he1]⟩
  have h2 : Option.some n ∈ g.siblings n := by
    rw [h1]
    exact List.mem_map.mpr ⟨n.id, hout, hn⟩
  refine ⟨h1, h2, ?_⟩
  intro m hm
  rcases hx : g.incoming (Option.some m) with _ | ⟨a, _ | ⟨b, t⟩⟩
  · simp only [Graph.siblings, hx]
  · exact absurd (by rw [hx]; rfl) hm
  · simp only [Graph.siblings, hx]

/-- C6 (witness): in the concrete graph p → n, p → m the siblings of "n"
contain "n" itself. -/
theorem siblings_single_parent_witness :
    Option.some (Node.mk "n" "n" "op" PyShape.none []) ∈
      (Graph.mk [("p", Node.mk "p" "p" "op" PyShape.none []),
                 ("n", Node.mk "n" "n" "op" PyShape.none []),
                 ("m", Node.mk "m" "m" "op" PyShape.none [])]
        [("p", "n", PyShape.none), ("p", "m", PyShape.none)]).siblings
        (Node.mk "n" "n" "op" PyShape.none []) :=
  (siblings_single_parent
    (Graph.mk [("p", Node.mk "p" "p" "op" PyShape.none []),
               ("n", Node.mk "n" "n" "op" PyShape.none []),
               ("m", Node.mk "m" "m" "op" PyShape.none [])]
      [("p", "n", PyShape.none), ("p", "m", PyShape.none)])
    (Node.mk "n" "n" "op" PyShape.none []) (Node.mk "p" "p" "op" PyShape.none [])
    (by decide) (by decide) (by decide)).2.1

/-- C9: a node whose parents all coincide in one single node `k` but that
is reached through two or more parallel edges gets the fallback `[n]` from
`siblings`, not the parent's outgoing set, because the single-parent test
counts the un-deduplicated incoming edge list. -/
theorem siblings_parallel_edges_fallback (g : Graph) (n : Node) (k : String)
    (hall : ∀ j ∈ g.incoming (Option.some n), j = k)
    (hlen : 2 ≤ (g.incoming (Option.some n)).length) :
    g.siblings n = [Option.some n] := by
  rcases hx : g.incoming (Option.some n) with _ | ⟨a, _ | ⟨b, t⟩⟩
  · rw [hx] at hlen
    simp at hlen
  · rw [hx] at hlen
    simp at hlen
  · simp only [Graph.siblings, hx]

/-- C9 (witness): with two parallel edges p → n (labels None and [1]),
`siblings` on "n" collapses to the fallback. -/
theorem siblings_parallel_edges_fallback_witness :
    (Graph.mk [("p", Node.mk "p" "p" "op" PyShape.none []),
               ("n", Node.mk "n" "n" "op" PyShape.none [])]
      [("p", "n", PyShape.none), ("p", "n", PyShape.list [1])]).siblings
      (Node.mk "n" "n" "op" PyShape.none []) =
      [Option.some (Node.mk "n" "n" "op" PyShape.none [])] :=
  siblings_parallel_edges_fallback
    (Graph.mk [("p", Node.mk "p" "p" "op" PyShape.none []),
               ("n", Node.mk "n" "n" "op" PyShape.none [])]
      [("p", "n", PyShape.none), ("p", "n", PyShape.list [1])])
    (Node.mk "n" "n" "op" PyShape.none []) "p" (by decide) (by decide)

/-- C10: neither `add_edge` nor `add_edge_by_id` requires the endpoints to
be members of the node mapping: an edge between two dangling ids is stored,
is reported by `outgoing` and `incoming`, and indexing the graph with a
dangling id still returns `None`. -/
theorem dangling_edge_no_integrity (g : Graph) (n1 n2 : Node) (l : PyShape)
    (h1 : g.getOne n1.id = Option.none) (h2 : g.getOne n2.id = Option.none) :
    (n1.id, n2.id, l) ∈ (g.add_edge_by_id n1.id n2.id l).edges ∧
    n2.id ∈ (g.add_edge_by_id n1.id n2.id l).outgoing (Option.some n1) ∧
    n1.id ∈ (g.add_edge_by_id n1.id n2.id l).incoming (Option.some n2) ∧
    (g.add_edge_by_id n1.id n2.id l).getOne n1.id = Option.none ∧
    (g.add_edge_by_id n1.id n2.id l).getOne n2.id = Option.none ∧
    (n1.id, n2.id, l) ∈ (g.add_edge (Option.some n1) (Option.some n2) l).edges := by
  refine ⟨?_, ?_, ?_, h1, h2, ?_⟩
  · exact List.mem_append_right _ (List.mem_singleton_self _)
  · refine List.mem_dedup.mpr (List.mem_map.mpr ⟨(n1.id, n2.id, l), ?_, rfl⟩)
    refine List.mem_filter.mpr ⟨List.mem_append_right _ (List.mem_singleton_self _), ?_⟩
    simp [pyId]
  · refine List.mem_map.mpr ⟨(n1.id, n2.id, l), ?_, rfl⟩
    refine List.mem_filter.mpr ⟨List.mem_append_right _ (List.mem_singleton_self _), ?_⟩
    simp [pyId]
  · simp only [Graph.add_edge, pyId]
    split
    · assumption
    · exact List.mem_append_right _ (List.mem_singleton_self _)

/-- C10 (witness): on the empty graph, an edge between the dangling ids
"x" and "y" is stored by `add_edge_by_id`. -/
theorem dangling_edge_no_integrity_witness :
    ("x", "y", PyShape.none) ∈
      ((Graph.mk [] []).add_edge_by_id "x" "y" PyShape.none).edges :=
  (dangling_edge_no_integrity (Graph.mk [] []) (Node.mk "x" "" "" PyShape.none [])
    (Node.mk "y" "" "" PyShape.none []) PyShape.none (by decide) (by decide)).1

end HiddenLayer
